import Mathlib

/-!
Verification development for the ksg widget composition and layout engine
(`Frame.cpp`, `Button.cpp`, `ProgressBar.cpp`, `TextArea.cpp`).

The source's geometry is computed over IEEE `float`; here it is embedded over
`ℚ`, which realises the same exact arithmetic the specification reasons with
(additions, `max`, division by a spacer count).  Pointers into spacer storage
are embedded as tagged values `(allocation id, index)`, external widget
pointers as opaque ids, and throwing functions return `Except`.
-/

namespace Ksg

/-! ### WidgetAdder spacer storage (from `WidgetAdder::add_horizontal_spacer`,
`WidgetAdder::add`, `WidgetAdder::add_line_seperator` in Frame.cpp)

A `std::vector<HorizontalSpacer>` owns the spacer values; `m_widgets` is a
`std::vector<Widget *>` whose entries either point at externally owned widgets,
at the frame's line separator, or into the spacer storage.  A pointer into the
spacer storage is embedded as the pair of the storage's current allocation id
and the element index; reallocating the storage yields a fresh allocation id,
so stale pointers are observably distinct from revalidated ones. -/

inductive Entry where
  | ext (id : Nat)
  | spacer (alloc : Nat) (idx : Nat)
  | sep
deriving DecidableEq

structure AdderState where
  widgets  : List Entry
  nspacers : Nat
  cap      : Nat
  alloc    : Nat
deriving DecidableEq

def initAdder : AdderState := ⟨[], 0, 0, 0⟩

/-- The pointer revalidation loop of `WidgetAdder::add_horizontal_spacer`:
`old_itr` walks the old storage (`a`, counter `c`), `new_itr` the new storage
(`a'`); both advance exactly when a widget entry equals the current old
pointer, which is then repointed to the corresponding new slot. -/
def patch_spacer_ptrs (a a' : Nat) : List Entry → Nat → List Entry
  | [], _ => []
  | e :: rest, c =>
    if e = Entry.spacer a c
    then Entry.spacer a' c :: patch_spacer_ptrs a a' rest (c + 1)
    else e :: patch_spacer_ptrs a a' rest c

/-- `WidgetAdder::add`: records a non-owning pointer to an external widget. -/
def add_widget (s : AdderState) (id : Nat) : AdderState :=
  { s with widgets := s.widgets ++ [Entry.ext id] }

/-- `WidgetAdder::add_line_seperator`: records the frame's line separator. -/
def add_line_seperator (s : AdderState) : AdderState :=
  { s with widgets := s.widgets ++ [Entry.sep] }

/-- `WidgetAdder::add_horizontal_spacer`.  If the storage is at capacity and
non-empty, a new vector with capacity `1 + cap*2` is reserved, elements are
copied, and the revalidation loop repoints widget entries; the swap installs
the fresh allocation.  If the storage is empty and at capacity, the
`push_back` itself reallocates: no spacer pointers exist yet, so nothing is
patched (the standard does not fix the new capacity; the minimal growth to 1
is used here).  Finally a new spacer is appended to storage and a pointer to
it to the widget list. -/
def add_horizontal_spacer (s : AdderState) : AdderState :=
  if s.nspacers = s.cap ∧ s.nspacers ≠ 0 then
    { widgets  := patch_spacer_ptrs s.alloc (s.alloc + 1) s.widgets 0
                    ++ [Entry.spacer (s.alloc + 1) s.nspacers],
      nspacers := s.nspacers + 1,
      cap      := 1 + s.cap * 2,
      alloc    := s.alloc + 1 }
  else if s.nspacers = s.cap then
    { widgets  := s.widgets ++ [Entry.spacer (s.alloc + 1) s.nspacers],
      nspacers := s.nspacers + 1,
      cap      := 1,
      alloc    := s.alloc + 1 }
  else
    { s with
      widgets  := s.widgets ++ [Entry.spacer s.alloc s.nspacers],
      nspacers := s.nspacers + 1 }

inductive AdderOp where
  | addW (id : Nat)
  | addSpacer
  | addSep
deriving DecidableEq

def run_op (s : AdderState) : AdderOp → AdderState
  | AdderOp.addW id => add_widget s id
  | AdderOp.addSpacer => add_horizontal_spacer s
  | AdderOp.addSep => add_line_seperator s

def run_ops (ops : List AdderOp) : AdderState :=
  ops.foldl run_op initAdder

def is_spacer_entry : Entry → Bool
  | Entry.spacer _ _ => true
  | _ => false

def spacer_entries (ws : List Entry) : List Entry :=
  ws.filter is_spacer_entry

def nonspacer_entries (ws : List Entry) : List Entry :=
  ws.filter (fun e => ! is_spacer_entry e)

/-- The storage-reference invariant: the Nth widget-list entry that is a
spacer points at slot N of the current spacer storage allocation. -/
def spacerInv (s : AdderState) : Prop :=
  spacer_entries s.widgets = (List.range s.nspacers).map (Entry.spacer s.alloc)

instance (s : AdderState) : Decidable (spacerInv s) := by
  unfold spacerInv; infer_instance

/-- Repoints a spacer entry to allocation `a'`, keeping its index; identity on
all other entries.  Under `spacerInv`, the revalidation loop acts as this map. -/
def retarget (a' : Nat) : Entry → Entry
  | Entry.spacer _ i => Entry.spacer a' i
  | e => e

lemma is_spacer_retarget (a' : Nat) (e : Entry) :
    is_spacer_entry (retarget a' e) = is_spacer_entry e := by
  cases e <;> rfl

lemma spacer_entries_map_retarget (a' : Nat) (ws : List Entry) :
    spacer_entries (ws.map (retarget a')) = (spacer_entries ws).map (retarget a') := by
  induction ws with
  | nil => rfl
  | cons e rest ih =>
    cases e <;> simp [spacer_entries, retarget, is_spacer_entry, List.filter] at ih ⊢ <;>
      simpa [spacer_entries] using ih

lemma nonspacer_entries_map_retarget (a' : Nat) (ws : List Entry) :
    nonspacer_entries (ws.map (retarget a')) = nonspacer_entries ws := by
  induction ws with
  | nil => rfl
  | cons e rest ih =>
    cases e <;> simp [nonspacer_entries, retarget, is_spacer_entry, List.filter] at ih ⊢ <;>
      simpa [nonspacer_entries] using ih

/-- Under the storage invariant (restated with an arbitrary starting counter
`c`), the revalidation loop of `add_horizontal_spacer` repoints exactly the
spacer entries, by position. -/
lemma patch_spacer_ptrs_eq_map (a a' : Nat) :
    ∀ (ws : List Entry) (c k : Nat),
      spacer_entries ws = (List.range' c k).map (Entry.spacer a) →
      patch_spacer_ptrs a a' ws c = ws.map (retarget a') := by
  intro ws
  induction ws with
  | nil => intro c k _; rfl
  | cons e rest ih =>
    intro c k h
    cases e with
    | ext id =>
      have h' : spacer_entries rest = (List.range' c k).map (Entry.spacer a) := by
        simpa [spacer_entries, is_spacer_entry, List.filter] using h
      simp [patch_spacer_ptrs, retarget, ih c k h']
    | sep =>
      have h' : spacer_entries rest = (List.range' c k).map (Entry.spacer a) := by
        simpa [spacer_entries, is_spacer_entry, List.filter] using h
      simp [patch_spacer_ptrs, retarget, ih c k h']
    | spacer b i =>
      have h0 : Entry.spacer b i :: spacer_entries rest
          = (List.range' c k).map (Entry.spacer a) := by
        simpa [spacer_entries, is_spacer_entry, List.filter] using h
      cases k with
      | zero => simp [List.range'] at h0
      | succ k' =>
        rw [List.range'] at h0
        simp only [List.map_cons, List.cons.injEq] at h0
        obtain ⟨hba, h'⟩ := h0
        injection hba with hb hi
        subst hb
        subst hi
        simp [patch_spacer_ptrs, retarget, ih (i + 1) k' h']

lemma spacer_entries_append (ws tail : List Entry) :
    spacer_entries (ws ++ tail) = spacer_entries ws ++ spacer_entries tail := by
  simp [spacer_entries, List.filter_append]

lemma spacerInv_add_widget (s : AdderState) (id : Nat) (h : spacerInv s) :
    spacerInv (add_widget s id) := by
  unfold spacerInv at h
  unfold spacerInv add_widget
  simpa [spacer_entries_append, spacer_entries, is_spacer_entry] using h

lemma spacerInv_add_line_seperator (s : AdderState) (h : spacerInv s) :
    spacerInv (add_line_seperator s) := by
  unfold spacerInv at h
  unfold spacerInv add_line_seperator
  simpa [spacer_entries_append, spacer_entries, is_spacer_entry] using h

lemma range_map_retarget (a a' n : Nat) :
    ((List.range n).map (Entry.spacer a)).map (retarget a')
      = (List.range n).map (Entry.spacer a') := by
  simp [List.map_map, Function.comp, retarget]

lemma spacer_entries_snoc_spacer (ws : List Entry) (a n : Nat) :
    spacer_entries (ws ++ [Entry.spacer a n]) = spacer_entries ws ++ [Entry.spacer a n] := by
  simp [spacer_entries_append, spacer_entries, is_spacer_entry]

lemma spacerInv_add_horizontal_spacer (s : AdderState) (h : spacerInv s) :
    spacerInv (add_horizontal_spacer s) := by
  unfold spacerInv at h
  unfold spacerInv add_horizontal_spacer
  by_cases hg : s.nspacers = s.cap ∧ s.nspacers ≠ 0
  · rw [if_pos hg]
    have hrange : spacer_entries s.widgets
        = (List.range' 0 s.nspacers).map (Entry.spacer s.alloc) := by
      simpa [List.range_eq_range'] using h
    rw [patch_spacer_ptrs_eq_map s.alloc (s.alloc + 1) s.widgets 0 s.nspacers hrange]
    rw [show (List.map (retarget (s.alloc + 1)) s.widgets) = s.widgets.map (retarget (s.alloc + 1)) from rfl]
    rw [spacer_entries_snoc_spacer, spacer_entries_map_retarget, h, range_map_retarget]
    simp [List.range_succ]
  · rw [if_neg hg]
    by_cases he : s.nspacers = s.cap
    · have hn : s.nspacers = 0 := by
        by_contra hn
        exact hg ⟨he, hn⟩
      rw [if_pos he]
      rw [spacer_entries_snoc_spacer, h, hn]
      simp [List.range_succ]
    · rw [if_neg he]
      rw [spacer_entries_snoc_spacer, h]
      simp [List.range_succ]

lemma spacerInv_run_op (s : AdderState) (op : AdderOp) (h : spacerInv s) :
    spacerInv (run_op s op) := by
  cases op with
  | addW id => exact spacerInv_add_widget s id h
  | addSpacer => exact spacerInv_add_horizontal_spacer s h
  | addSep => exact spacerInv_add_line_seperator s h

lemma spacerInv_foldl (ops : List AdderOp) :
    ∀ s : AdderState, spacerInv s → spacerInv (ops.foldl run_op s) := by
  induction ops with
  | nil => intro s h; exact h
  | cons op rest ih => intro s h; exact ih _ (spacerInv_run_op s op h)

lemma spacerInv_run_ops (ops : List AdderOp) : spacerInv (run_ops ops) :=
  spacerInv_foldl ops initAdder (by decide)

lemma nonspacer_entries_snoc_spacer (ws : List Entry) (a n : Nat) :
    nonspacer_entries (ws ++ [Entry.spacer a n]) = nonspacer_entries ws := by
  simp [nonspacer_entries, List.filter_append, is_spacer_entry]

lemma nonspacer_entries_add_horizontal_spacer (s : AdderState) (h : spacerInv s) :
    nonspacer_entries (add_horizontal_spacer s).widgets = nonspacer_entries s.widgets := by
  unfold spacerInv at h
  unfold add_horizontal_spacer
  by_cases hg : s.nspacers = s.cap ∧ s.nspacers ≠ 0
  · rw [if_pos hg]
    have hrange : spacer_entries s.widgets
        = (List.range' 0 s.nspacers).map (Entry.spacer s.alloc) := by
      simpa [List.range_eq_range'] using h
    rw [patch_spacer_ptrs_eq_map s.alloc (s.alloc + 1) s.widgets 0 s.nspacers hrange]
    rw [show (AdderState.mk
          (s.widgets.map (retarget (s.alloc + 1)) ++ [Entry.spacer (s.alloc + 1) s.nspacers])
          (s.nspacers + 1) (1 + s.cap * 2) (s.alloc + 1)).widgets
        = s.widgets.map (retarget (s.alloc + 1)) ++ [Entry.spacer (s.alloc + 1) s.nspacers]
        from rfl]
    rw [nonspacer_entries_snoc_spacer, nonspacer_entries_map_retarget]
  · rw [if_neg hg]
    by_cases he : s.nspacers = s.cap
    · rw [if_pos he]
      exact nonspacer_entries_snoc_spacer s.widgets (s.alloc + 1) s.nspacers
    · rw [if_neg he]
      exact nonspacer_entries_snoc_spacer s.widgets s.alloc s.nspacers

lemma add_horizontal_spacer_last (s : AdderState) :
    (add_horizontal_spacer s).widgets.getLast?
      = some (Entry.spacer (add_horizontal_spacer s).alloc s.nspacers) := by
  unfold add_horizontal_spacer
  by_cases hg : s.nspacers = s.cap ∧ s.nspacers ≠ 0
  · rw [if_pos hg]
    simp [List.getLast?_concat]
  · rw [if_neg hg]
    by_cases he : s.nspacers = s.cap
    · rw [if_pos he]
      simp [List.getLast?_concat]
    · rw [if_neg he]
      simp [List.getLast?_concat]

/-- C1: along every sequence of `WidgetAdder` calls, the spacer-storage
reference invariant holds (the Nth spacer entry in the widget list refers to
slot N of the current storage allocation); an `add_horizontal_spacer` call
preserves it, leaves every non-spacer widget-list entry unchanged, grows the
storage to capacity `2*old + 1` when it is full and non-empty, and appends a
reference to the new spacer (slot `nspacers` of the resulting allocation) at
the back of the widget list. -/
theorem add_horizontal_spacer_revalidates_references (ops : List AdderOp) :
    spacerInv (run_ops ops) ∧
    spacerInv (add_horizontal_spacer (run_ops ops)) ∧
    nonspacer_entries (add_horizontal_spacer (run_ops ops)).widgets
      = nonspacer_entries (run_ops ops).widgets ∧
    ((run_ops ops).nspacers = (run_ops ops).cap ∧ (run_ops ops).nspacers ≠ 0 →
      (add_horizontal_spacer (run_ops ops)).cap = 2 * (run_ops ops).cap + 1) ∧
    (add_horizontal_spacer (run_ops ops)).widgets.getLast?
      = some (Entry.spacer (add_horizontal_spacer (run_ops ops)).alloc
                (run_ops ops).nspacers) ∧
    (add_horizontal_spacer (run_ops ops)).nspacers = (run_ops ops).nspacers + 1 := by
  have hinv := spacerInv_run_ops ops
  refine ⟨hinv, spacerInv_add_horizontal_spacer _ hinv,
    nonspacer_entries_add_horizontal_spacer _ hinv, ?_, add_horizontal_spacer_last _, ?_⟩
  · intro hg
    unfold add_horizontal_spacer
    rw [if_pos hg]
    show 1 + (run_ops ops).cap * 2 = 2 * (run_ops ops).cap + 1
    ring
  · unfold add_horizontal_spacer
    by_cases hg : (run_ops ops).nspacers = (run_ops ops).cap ∧ (run_ops ops).nspacers ≠ 0
    · rw [if_pos hg]
    · rw [if_neg hg]
      by_cases he : (run_ops ops).nspacers = (run_ops ops).cap
      · rw [if_pos he]
      · rw [if_neg he]

/-- Witness: after one `add_horizontal_spacer` the storage is full (size 1 =
capacity 1), so the next call takes the growth branch and reserves capacity
`2*1 + 1 = 3`. -/
theorem add_horizontal_spacer_revalidates_references_witness :
    (run_ops [AdderOp.addSpacer]).nspacers = (run_ops [AdderOp.addSpacer]).cap ∧
    (run_ops [AdderOp.addSpacer]).nspacers ≠ 0 ∧
    (add_horizontal_spacer (run_ops [AdderOp.addSpacer])).cap
      = 2 * (run_ops [AdderOp.addSpacer]).cap + 1 :=
  ⟨by decide, by decide,
    (add_horizontal_spacer_revalidates_references [AdderOp.addSpacer]).2.2.2.1
      ⟨by decide, by decide⟩⟩

/-! ### Frame widget lists and `Frame::finalize_widgets` (public overload)

Used for C2, C6 and C9.  Widgets are embedded as trees: a leaf stands for a
non-frame widget, a `frameW` node for a frame-kind widget together with its
committed child list (`dynamic_cast<Frame *>` succeeds exactly on `frameW`).
Object identity (pointer comparison) is embedded as a `Nat` id; every frame's
`m_the_line_seperator` is likewise identified by a per-frame `Nat` token.
Throwing is embedded as `Except`: the source throws before any member is
mutated, so an error leaves the frame exactly as it was. -/

inductive WidgetT where
  | leaf (id : Nat)
  | frameW (id : Nat) (children : List WidgetT)

def widId : WidgetT → Nat
  | WidgetT.leaf i => i
  | WidgetT.frameW i _ => i

/-- `Frame::contains` (Frame.cpp): scans the frame's widget list; per entry,
first a pointer comparison with the target, then, if the entry is a frame,
a recursive scan of that frame's own list. -/
def frame_contains (t : Nat) : List WidgetT → Bool
  | [] => false
  | WidgetT.leaf i :: rest => i == t || frame_contains t rest
  | WidgetT.frameW f cs :: rest => f == t || frame_contains t cs || frame_contains t rest

/-- The style map as consulted by `Frame::set_style`: only the global padding
key matters for the frame's own fields (`set_if_found` on
`styles::k_global_padding`, else the default padding `5`). -/
structure StyleMapM where
  padding : Option ℚ
deriving DecidableEq

inductive FrameErr where
  | mustKnowLineSep
  | cannotContainThis
deriving DecidableEq

structure FrameSt where
  fid      : Nat
  sepId    : Nat
  widgets  : List WidgetT
  spacers  : List ℚ
  padding  : ℚ

/-- `Frame::k_default_padding` (Frame.hpp). -/
def k_default_padding : ℚ := 5

/-- The frame-level effect of `Frame::set_style`: padding from the style map's
global-padding key, or the default when absent.  (Border/child styling has no
effect on the fields modelled here.) -/
def frame_set_style (st : FrameSt) (m : StyleMapM) : FrameSt :=
  { st with padding := m.padding.getD k_default_padding }

/-- `Frame::finalize_widgets(std::vector<Widget *> &&, ...)`: the line-
separator handshake check, then the self-containment scan, and only then the
commit swap; with a style map the styles are applied afterwards. -/
def finalize_widgets (st : FrameSt) (widgets : List WidgetT) (spacers : List ℚ)
    (the_line_sep : Nat) (styles : Option StyleMapM) : Except FrameErr FrameSt :=
  if the_line_sep ≠ st.sepId then
    Except.error FrameErr.mustKnowLineSep
  else if widgets.any (fun w =>
      match w with
      | WidgetT.frameW _ cs => frame_contains st.fid cs
      | WidgetT.leaf _ => false) then
    Except.error FrameErr.cannotContainThis
  else
    let st := { st with widgets := widgets, spacers := spacers }
    match styles with
    | some m => Except.ok (frame_set_style st m)
    | none => Except.ok st

/-- A throwing call leaves the object as it was: run `finalize_widgets` and
keep the original state on an exception. -/
def finalize_widgets_run (st : FrameSt) (widgets : List WidgetT) (spacers : List ℚ)
    (the_line_sep : Nat) (styles : Option StyleMapM) : FrameSt :=
  match finalize_widgets st widgets spacers the_line_sep styles with
  | Except.ok st' => st'
  | Except.error _ => st

/-- The incoming-list scan of `Frame::finalize_widgets`: some entry is a
frame-kind widget that already (recursively) contains the target frame. -/
def any_contains_target (t : Nat) (widgets : List WidgetT) : Bool :=
  widgets.any (fun w =>
    match w with
    | WidgetT.frameW _ cs => frame_contains t cs
    | WidgetT.leaf _ => false)

/-- C2: when the incoming widget list holds a frame-kind widget that directly
or transitively contains the target frame, `finalize_widgets` fails with the
invalid-configuration error, and — the scan running before the commit swap —
the frame's committed widget list and spacer storage are unchanged. -/
theorem finalize_widgets_rejects_self_containment
    (st : FrameSt) (widgets : List WidgetT) (spacers : List ℚ)
    (styles : Option StyleMapM)
    (h : any_contains_target st.fid widgets = true) :
    finalize_widgets st widgets spacers st.sepId styles
        = Except.error FrameErr.cannotContainThis ∧
    finalize_widgets_run st widgets spacers st.sepId styles = st := by
  have h1 : finalize_widgets st widgets spacers st.sepId styles
      = Except.error FrameErr.cannotContainThis := by
    unfold any_contains_target at h
    unfold finalize_widgets
    rw [if_neg (by simp : ¬ st.sepId ≠ st.sepId), if_pos h]
  refine ⟨h1, ?_⟩
  unfold finalize_widgets_run
  rw [h1]

/-- Witness: a frame with id 0 receives a widget list holding a frame (id 1)
whose committed children include frame 0 itself. -/
theorem finalize_widgets_rejects_self_containment_witness :
    any_contains_target (FrameSt.mk 0 10 [] [] 0).fid
        [WidgetT.frameW 1 [WidgetT.frameW 0 []]] = true ∧
    finalize_widgets (FrameSt.mk 0 10 [] [] 0)
        [WidgetT.frameW 1 [WidgetT.frameW 0 []]] [] 10 none
      = Except.error FrameErr.cannotContainThis :=
  ⟨by simp [any_contains_target, frame_contains],
    (finalize_widgets_rejects_self_containment
      (FrameSt.mk 0 10 [] [] 0) [WidgetT.frameW 1 [WidgetT.frameW 0 []]] [] none
      (by simp [any_contains_target, frame_contains])).1⟩

/-- `Frame::begin_adding_widgets`: hands the adder this frame's own line
separator (the "secret handshake" token) and the optional style map. -/
structure WidgetAdderM where
  widgets      : List WidgetT
  spacers      : List ℚ
  the_line_sep : Nat
  styles       : Option StyleMapM
  parent       : Option Nat

def begin_adding_widgets (st : FrameSt) (styles : Option StyleMapM) : WidgetAdderM :=
  { widgets := [], spacers := [], the_line_sep := st.sepId,
    styles := styles, parent := some st.fid }

/-- C9: `finalize_widgets` errors out, before any state change, whenever the
passed line-separator token is not this frame's own; a successful commit
therefore implies the caller knew this frame's separator, which only
`begin_adding_widgets` of this frame hands out. -/
theorem finalize_widgets_line_sep_handshake
    (st : FrameSt) (widgets : List WidgetT) (spacers : List ℚ)
    (tok : Nat) (styles : Option StyleMapM)
    (h : tok ≠ st.sepId) :
    finalize_widgets st widgets spacers tok styles = Except.error FrameErr.mustKnowLineSep ∧
    finalize_widgets_run st widgets spacers tok styles = st ∧
    (∀ (w : List WidgetT) (sp : List ℚ) (t : Nat) (sm : Option StyleMapM) (st' : FrameSt),
      finalize_widgets st w sp t sm = Except.ok st' → t = st.sepId) ∧
    (begin_adding_widgets st styles).the_line_sep = st.sepId := by
  have h1 : finalize_widgets st widgets spacers tok styles
      = Except.error FrameErr.mustKnowLineSep := by
    unfold finalize_widgets
    rw [if_pos h]
  refine ⟨h1, ?_, ?_, rfl⟩
  · unfold finalize_widgets_run
    rw [h1]
  · intro w sp t sm st' hok
    by_contra ht
    have : finalize_widgets st w sp t sm = Except.error FrameErr.mustKnowLineSep := by
      unfold finalize_widgets
      rw [if_pos ht]
    rw [this] at hok
    exact Except.noConfusion hok

/-- Witness: token 3 against a frame whose separator token is 10. -/
theorem finalize_widgets_line_sep_handshake_witness :
    (3 : Nat) ≠ (FrameSt.mk 0 10 [] [] 0).sepId ∧
    finalize_widgets (FrameSt.mk 0 10 [] [] 0) [] [] 3 none
      = Except.error FrameErr.mustKnowLineSep :=
  ⟨by decide,
    (finalize_widgets_line_sep_handshake (FrameSt.mk 0 10 [] [] 0) [] [] 3 none
      (by decide)).1⟩

/-- `WidgetAdder::~WidgetAdder` (Frame.cpp): returns immediately when an
exception is propagating (`std::uncaught_exceptions() > 0`) or when the adder
has been moved from (`m_parent` null); otherwise hands the accumulated widget
list and spacer storage to the parent frame's `finalize_widgets` together
with the line-separator token and the optional style map.  A thrown
`finalize_widgets` error propagates and leaves the frame unchanged. -/
def widget_adder_dtor (uncaught_exceptions : Nat) (ad : WidgetAdderM) (st : FrameSt) :
    FrameSt × Option FrameErr :=
  if uncaught_exceptions > 0 then (st, none)
  else
    match ad.parent with
    | none => (st, none)
    | some _ =>
      match finalize_widgets st ad.widgets ad.spacers ad.the_line_sep ad.styles with
      | Except.ok st' => (st', none)
      | Except.error e => (st, some e)

/-- C6: on scope exit, a propagating exception makes the adder's destructor a
no-op on the bound frame; otherwise the accumulated widget list and spacer
storage are transferred to the bound frame's `finalize_widgets`, and when a
style map was supplied at `begin_adding_widgets` it is applied (here visible
as the frame's padding taken from the map, or the default). -/
theorem widget_adder_dtor_behaviour (n : Nat) (ad : WidgetAdderM) (st : FrameSt) :
    (n > 0 → widget_adder_dtor n ad st = (st, none)) ∧
    (n = 0 → ad.parent.isSome = true →
      widget_adder_dtor n ad st
        = match finalize_widgets st ad.widgets ad.spacers ad.the_line_sep ad.styles with
          | Except.ok st' => (st', none)
          | Except.error e => (st, some e)) ∧
    (∀ m : StyleMapM, n = 0 → ad.parent.isSome = true →
      ad.the_line_sep = st.sepId → ad.styles = some m →
      any_contains_target st.fid ad.widgets = false →
      widget_adder_dtor n ad st
        = ({ st with
              widgets := ad.widgets,
              spacers := ad.spacers,
              padding := m.padding.getD k_default_padding }, none)) := by
  refine ⟨?_, ?_, ?_⟩
  · intro hn
    unfold widget_adder_dtor
    rw [if_pos hn]
  · intro hn hp
    subst hn
    unfold widget_adder_dtor
    rw [if_neg (by simp)]
    cases hpar : ad.parent with
    | none => rw [hpar] at hp; exact Bool.noConfusion hp
    | some p => rfl
  · intro m hn hp hsep hst hnc
    subst hn
    unfold widget_adder_dtor
    rw [if_neg (by simp)]
    cases hpar : ad.parent with
    | none => rw [hpar] at hp; exact Bool.noConfusion hp
    | some p =>
      have hfin : finalize_widgets st ad.widgets ad.spacers ad.the_line_sep ad.styles
          = Except.ok ({ st with
              widgets := ad.widgets,
              spacers := ad.spacers,
              padding := m.padding.getD k_default_padding }) := by
        unfold finalize_widgets
        rw [hsep, if_neg (by simp : ¬ st.sepId ≠ st.sepId)]
        rw [show (ad.widgets.any fun w =>
            match w with
            | WidgetT.frameW _ cs => frame_contains st.fid cs
            | WidgetT.leaf _ => false) = any_contains_target st.fid ad.widgets from rfl]
        rw [hnc]
        simp only [Bool.false_eq_true, if_false, hst]
        rfl
      rw [hfin]

/-- Witness: a destructor run with no propagating exception, an adder bound to
frame 0 with separator token 7, one accumulated leaf widget, one spacer, and a
style map carrying padding 2; and a destructor run with one propagating
exception. -/
theorem widget_adder_dtor_behaviour_witness :
    (0 : Nat) = 0 ∧
    (WidgetAdderM.mk [WidgetT.leaf 3] [1] 7 (some (StyleMapM.mk (some 2))) (some 0)).parent.isSome = true ∧
    widget_adder_dtor 0
        (WidgetAdderM.mk [WidgetT.leaf 3] [1] 7 (some (StyleMapM.mk (some 2))) (some 0))
        (FrameSt.mk 0 7 [] [] 0)
      = (FrameSt.mk 0 7 [WidgetT.leaf 3] [1] 2, none) ∧
    (1 : Nat) > 0 ∧
    widget_adder_dtor 1
        (WidgetAdderM.mk [WidgetT.leaf 3] [1] 7 (some (StyleMapM.mk (some 2))) (some 0))
        (FrameSt.mk 0 7 [] [] 0)
      = (FrameSt.mk 0 7 [] [] 0, none) :=
  ⟨rfl, rfl,
    (widget_adder_dtor_behaviour 0
        (WidgetAdderM.mk [WidgetT.leaf 3] [1] 7 (some (StyleMapM.mk (some 2))) (some 0))
        (FrameSt.mk 0 7 [] [] 0)).2.2
      (StyleMapM.mk (some 2)) rfl rfl rfl rfl rfl,
    by decide,
    (widget_adder_dtor_behaviour 1
        (WidgetAdderM.mk [WidgetT.leaf 3] [1] 7 (some (StyleMapM.mk (some 2))) (some 0))
        (FrameSt.mk 0 7 [] [] 0)).1 (by decide)⟩

/-! ### Flat widget geometry (the layout passes of Frame.cpp)

A frame's widget list, as the geometry passes see it: an external leaf widget
carries its width and height; a `HorizontalSpacer` carries the width assigned
to it (modelled from the spec for the parts of the spacer type outside
Frame.cpp: zero intrinsic size, so height 0); a `LineSeperator` (modelled from
the spec: a zero-size line-break marker).  `is_horizontal_spacer` and
`is_line_seperator` are embedded as the constructor tags. -/

inductive Wk where
  | ext (w h : ℚ)
  | spacer (w : ℚ)
  | sep
deriving DecidableEq

def Wk.width : Wk → ℚ
  | Wk.ext w _ => w
  | Wk.spacer w => w
  | Wk.sep => 0

def Wk.height : Wk → ℚ
  | Wk.ext _ h => h
  | Wk.spacer _ => 0
  | Wk.sep => 0

def isSpacerW : Wk → Bool
  | Wk.spacer _ => true
  | _ => false

def isSepW : Wk → Bool
  | Wk.sep => true
  | _ => false

/-- `Frame::get_widget_advance`: width plus trailing padding, except that the
two special kinds (separator, spacer) contribute their width only. -/
def get_widget_advance (pad : ℚ) (w : Wk) : ℚ :=
  w.width + (if isSepW w || isSpacerW w then 0 else pad)

/-- `Frame::set_horz_spacer_widths` on one line range: count the spacers; if
none, nothing to distribute; otherwise assign every spacer
`max(0, left_over_space / count − padding)`. -/
def set_horz_spacer_widths (pad left_over_space : ℚ) (line : List Wk) : List Wk :=
  let horz_spacer_count := (line.filter isSpacerW).length
  if horz_spacer_count = 0 then line
  else
    let width_per_spacer := max 0 (left_over_space / horz_spacer_count - pad)
    line.map (fun w => if isSpacerW w then Wk.spacer width_per_spacer else w)

/-- The loop of `Frame::update_horizontal_spacers`, carrying the cursor `x`,
the `pad_fix` accumulator and the current line range (`line_begin` to the
cursor).  A spacer absorbs `pad_fix` and clears it; a non-spacer widget first
sets `pad_fix = -padding` and computes its advance; on horizontal overflow or
a line separator the accumulated range gets its spacer widths set from
`max(k_horz_space − x, 0)` and a new line starts with this widget.  After the
loop the final range is flushed the same way (the source skips that flush
only when `line_begin == end`, i.e. only for an empty widget list). -/
def update_horz_go (k_horz_space pad : ℚ) : List Wk → ℚ → ℚ → List Wk → List Wk
  | [], x, _pf, cur => set_horz_spacer_widths pad (max (k_horz_space - x) 0) cur
  | w :: rest, x, pf, cur =>
    if isSpacerW w then
      update_horz_go k_horz_space pad rest (x + pf) 0 (cur ++ [w])
    else
      let horz_step := get_widget_advance pad w
      if x + horz_step > k_horz_space ∨ isSepW w = true then
        set_horz_spacer_widths pad (max (k_horz_space - x) 0) cur
          ++ update_horz_go k_horz_space pad rest horz_step 0 [w]
      else
        update_horz_go k_horz_space pad rest (x + horz_step) (-pad) (cur ++ [w])

/-- `Frame::update_horizontal_spacers` over the interior width budget
`m_border.width_available_for_widgets()`, starting at `x = 0`. -/
def update_horizontal_spacers (k_horz_space pad : ℚ) (ws : List Wk) : List Wk :=
  match ws with
  | [] => []
  | _ :: _ => update_horz_go k_horz_space pad ws 0 0 []

/-! The per-line description the specification gives of the same pass: split
the widget list into the pass's lines, recompute each line's used width by a
standalone fold, and set every spacer on a line from
`max((max(interior − used, 0) / spacer_count) − padding, 0)`. -/

/-- The line decomposition made by `update_horizontal_spacers` (same cursor
recursion, recording the line ranges instead of setting widths). -/
def lines_go (k_horz_space pad : ℚ) : List Wk → ℚ → ℚ → List Wk → List (List Wk)
  | [], _, _, cur => [cur]
  | w :: rest, x, pf, cur =>
    if isSpacerW w then
      lines_go k_horz_space pad rest (x + pf) 0 (cur ++ [w])
    else
      let horz_step := get_widget_advance pad w
      if x + horz_step > k_horz_space ∨ isSepW w = true then
        cur :: lines_go k_horz_space pad rest horz_step 0 [w]
      else
        lines_go k_horz_space pad rest (x + horz_step) (-pad) (cur ++ [w])

def spacer_lines (k_horz_space pad : ℚ) (ws : List Wk) : List (List Wk) :=
  match ws with
  | [] => []
  | _ :: _ => lines_go k_horz_space pad ws 0 0 []

/-- Used width of a line, recomputed per line: fold the pass's cursor rules
over the line's own entries. -/
def line_st_go (pad : ℚ) : List Wk → ℚ × ℚ → ℚ × ℚ
  | [], st => st
  | w :: rest, st =>
    if isSpacerW w then line_st_go pad rest (st.1 + st.2, 0)
    else line_st_go pad rest (st.1 + get_widget_advance pad w, -pad)

/-- Cursor state after a whole line.  A line opened by a break starts with the
widget that caused the break: that widget enters with `x = advance`,
`pad_fix = 0` (the source clears `pad_fix` on the break). -/
def line_st (pad : ℚ) (after_break : Bool) (line : List Wk) : ℚ × ℚ :=
  match after_break, line with
  | true, w :: rest => line_st_go pad rest (get_widget_advance pad w, 0)
  | _, l => line_st_go pad l (0, 0)

def line_used (pad : ℚ) (after_break : Bool) (line : List Wk) : ℚ :=
  (line_st pad after_break line).1

def distribute_line (k_horz_space pad : ℚ) (after_break : Bool) (line : List Wk) : List Wk :=
  set_horz_spacer_widths pad (max (k_horz_space - line_used pad after_break line) 0) line

def distribute_lines (k_horz_space pad : ℚ) : Bool → List (List Wk) → List Wk
  | _, [] => []
  | b, l :: ls => distribute_line k_horz_space pad b l
      ++ distribute_lines k_horz_space pad true ls

lemma line_st_go_append (pad : ℚ) (l1 l2 : List Wk) (st : ℚ × ℚ) :
    line_st_go pad (l1 ++ l2) st = line_st_go pad l2 (line_st_go pad l1 st) := by
  induction l1 generalizing st with
  | nil => rfl
  | cons w rest ih =>
    by_cases hsp : isSpacerW w = true <;>
      simp [line_st_go, hsp, ih]

lemma line_st_snoc (pad : ℚ) (b : Bool) (cur : List Wk) (w : Wk)
    (h : b = true → cur ≠ []) :
    line_st pad b (cur ++ [w]) = line_st_go pad [w] (line_st pad b cur) := by
  cases b with
  | false =>
    show line_st_go pad (cur ++ [w]) (0, 0) = _
    rw [line_st_go_append]
    rfl
  | true =>
    cases cur with
    | nil => exact absurd rfl (h rfl)
    | cons c0 ctail =>
      show line_st_go pad ((ctail ++ [w])) _ = _
      rw [line_st_go_append]
      rfl

/-- The interleaved single-pass loop equals the per-line description, given
that the cursor state equals the line-local recomputation of the accumulated
range. -/
lemma update_horz_go_eq_distribute (k_horz_space pad : ℚ) :
    ∀ (l cur : List Wk) (b : Bool) (x pf : ℚ),
      (b = true → cur ≠ []) → (x, pf) = line_st pad b cur →
      update_horz_go k_horz_space pad l x pf cur
        = distribute_lines k_horz_space pad b (lines_go k_horz_space pad l x pf cur) := by
  intro l
  induction l with
  | nil =>
    intro cur b x pf _ hst
    have hx : x = line_used pad b cur := by
      rw [line_used, ← hst]
    simp [update_horz_go, lines_go, distribute_lines, distribute_line, hx]
  | cons w rest ih =>
    intro cur b x pf hne hst
    by_cases hsp : isSpacerW w = true
    · have hst' : ((x + pf : ℚ), (0 : ℚ)) = line_st pad b (cur ++ [w]) := by
        rw [line_st_snoc pad b cur w hne, ← hst]
        simp [line_st_go, hsp]
      have hcur' : b = true → cur ++ [w] ≠ [] := by
        intro _
        simp
      have := ih (cur ++ [w]) b (x + pf) 0 hcur' hst'
      simp only [update_horz_go, lines_go, hsp, if_true]
      exact this
    · by_cases hbr : x + get_widget_advance pad w > k_horz_space ∨ isSepW w = true
      · have hst' : ((get_widget_advance pad w : ℚ), (0 : ℚ)) = line_st pad true [w] := by
          rfl
        have hcur' : (true : Bool) = true → ([w] : List Wk) ≠ [] := by
          intro _
          simp
        have hx : x = line_used pad b cur := by
          rw [line_used, ← hst]
        have := ih [w] true (get_widget_advance pad w) 0 hcur' hst'
        simp only [update_horz_go, lines_go, hsp, Bool.false_eq_true, if_false,
          hbr, if_pos, distribute_lines, distribute_line]
        rw [this, hx]
      · have hst' : ((x + get_widget_advance pad w : ℚ), (-pad : ℚ))
            = line_st pad b (cur ++ [w]) := by
          rw [line_st_snoc pad b cur w hne, ← hst]
          simp [line_st_go, hsp]
        have hcur' : b = true → cur ++ [w] ≠ [] := by
          intro _
          simp
        have := ih (cur ++ [w]) b (x + get_widget_advance pad w) (-pad) hcur' hst'
        simp only [update_horz_go, lines_go, hsp, Bool.false_eq_true, if_false,
          hbr, if_neg]
        exact this

/-- C3 (amended): the spacer-distribution pass is the per-line rule: for every
line it produces, with used width recomputed per line by the pass's cursor
rules, leftover is `max(interior − used, 0)`; a line holding `n ≥ 1` spacers
assigns every one of them `max(leftover/n − padding, 0)` (`distribute_line` /
`set_horz_spacer_widths`), and zero-spacer lines are left untouched.  In
particular a single spacer alone on a line is assigned
`max(leftover − padding, 0)` — the leftover reduced by one padding and floored
at zero, not the full leftover. -/
theorem update_horizontal_spacers_per_line (k_horz_space pad : ℚ)
    (hs : 0 ≤ k_horz_space) :
    (∀ ws : List Wk, update_horizontal_spacers k_horz_space pad ws
        = distribute_lines k_horz_space pad false (spacer_lines k_horz_space pad ws)) ∧
    (∀ w0 : ℚ, update_horizontal_spacers k_horz_space pad [Wk.spacer w0]
        = [Wk.spacer (max 0 (k_horz_space - pad))]) := by
  constructor
  · intro ws
    cases ws with
    | nil => rfl
    | cons w rest =>
      exact update_horz_go_eq_distribute k_horz_space pad (w :: rest) [] false 0 0
        (fun h => Bool.noConfusion h) rfl
  · intro w0
    show update_horz_go k_horz_space pad [Wk.spacer w0] 0 0 []
        = [Wk.spacer (max 0 (k_horz_space - pad))]
    simp only [update_horz_go, isSpacerW, if_true, List.nil_append]
    show set_horz_spacer_widths pad (max (k_horz_space - (0 + 0)) 0) [Wk.spacer w0]
        = [Wk.spacer (max 0 (k_horz_space - pad))]
    rw [add_zero, sub_zero, max_eq_left hs]
    simp [set_horz_spacer_widths, isSpacerW]

/-- Witness for the amended C3 theorem at interior width 100 and padding 10. -/
theorem update_horizontal_spacers_per_line_witness :
    (0 : ℚ) ≤ 100 ∧
    update_horizontal_spacers 100 10 [Wk.spacer 0] = [Wk.spacer (max 0 (100 - 10))] :=
  ⟨by norm_num, (update_horizontal_spacers_per_line 100 10 (by norm_num)).2 0⟩

/-- C3 counterexample to the claim as stated: with interior width 100 and
padding 10, a single spacer alone on its line has zero non-spacer advances, so
per the claim it would absorb the full leftover `max(100 − 0, 0) = 100`; the
pass assigns it `max(100/1 − 10, 0) = 90`. -/
theorem lone_spacer_absorbs_leftover_counterexample :
    update_horizontal_spacers 100 10 [Wk.spacer 0] = [Wk.spacer 90] ∧
    update_horizontal_spacers 100 10 [Wk.spacer 0] ≠ [Wk.spacer (max (100 - 0) 0)] := by
  have h : update_horizontal_spacers 100 10 [Wk.spacer 0] = [Wk.spacer 90] := by
    show update_horz_go 100 10 [Wk.spacer 0] 0 0 [] = [Wk.spacer 90]
    simp only [update_horz_go, isSpacerW, if_true, List.nil_append]
    show set_horz_spacer_widths 10 (max (100 - (0 + 0)) 0) [Wk.spacer 0] = [Wk.spacer 90]
    norm_num [set_horz_spacer_widths, isSpacerW]
  refine ⟨h, ?_⟩
  rw [h]
  intro hcontra
  have : (90 : ℚ) = max (100 - 0) 0 := by
    injection List.head_eq_of_cons_eq hcontra with h1
  norm_num at this

/-! ### The positioning pass (private `Frame::finalize_widgets`, Frame.cpp)

Cursor starts at `widget_start() + (padding, padding)`; the right limit is
`location().x + width()`.  A separator advances to the next line and is not
placed; a widget that would overflow the right limit first forces a line
advance; a spacer absorbs `pad_fix` before being placed; placing updates the
line height, advances `x` and arms `pad_fix = -padding`. -/

def position_go (pad start_x right_limit : ℚ) :
    List Wk → ℚ → ℚ → ℚ → ℚ → List (ℚ × ℚ)
  | [], _, _, _, _ => []
  | w :: rest, x, y, line_height, pad_fix =>
    if isSepW w then
      position_go pad start_x right_limit rest start_x (y + line_height + pad) 0 0
    else
      let overflow := x + get_widget_advance pad w > right_limit
      let x2 := if overflow then start_x else x
      let y2 := if overflow then y + line_height + pad else y
      let lh2 : ℚ := if overflow then 0 else line_height
      let pf2 : ℚ := if overflow then 0 else pad_fix
      let x3 := if isSpacerW w then x2 + pf2 else x2
      (x3, y2) :: position_go pad start_x right_limit rest
        (x3 + get_widget_advance pad w) y2 (max w.height lh2) (-pad)

/-- The positioning pass: one `(x, y)` per placed (non-separator) widget, in
declaration order, starting at `(start_x, start_y)` with zeroed accumulators. -/
def position_pass (pad start_x start_y right_limit : ℚ) (ws : List Wk) : List (ℚ × ℚ) :=
  position_go pad start_x right_limit ws start_x start_y 0 0

lemma advance_nonneg (pad : ℚ) (hpad : 0 ≤ pad) (w : Wk) (hw : 0 ≤ Wk.width w) :
    0 ≤ get_widget_advance pad w := by
  unfold get_widget_advance
  by_cases h : (isSepW w || isSpacerW w) = true
  · rw [if_pos h]
    simpa using hw
  · rw [if_neg h]
    exact add_nonneg hw hpad

lemma position_go_single_line (pad start_x right_limit : ℚ) (hpad : 0 ≤ pad) :
    ∀ (ws : List Wk) (x y lh pf : ℚ),
      (∀ w ∈ ws, isSepW w = false) → (∀ w ∈ ws, 0 ≤ Wk.width w) → pf ≤ 0 →
      x + (ws.map (get_widget_advance pad)).sum ≤ right_limit →
      (position_go pad start_x right_limit ws x y lh pf).length = ws.length ∧
      ∀ p ∈ position_go pad start_x right_limit ws x y lh pf, p.2 = y := by
  intro ws
  induction ws with
  | nil =>
    intro x y lh pf _ _ _ _
    exact ⟨rfl, by intro p hp; cases hp⟩
  | cons w rest ih =>
    intro x y lh pf hsep hw hpf hfit
    have hsepw : isSepW w = false := hsep w (List.mem_cons_self w rest)
    have hadv : 0 ≤ get_widget_advance pad w :=
      advance_nonneg pad hpad w (hw w (List.mem_cons_self w rest))
    have hsum : 0 ≤ (rest.map (get_widget_advance pad)).sum := by
      apply List.sum_nonneg
      intro a ha
      obtain ⟨b, hb, rfl⟩ := List.mem_map.mp ha
      exact advance_nonneg pad hpad b (hw b (List.mem_cons_of_mem w hb))
    have hfit1 : x + get_widget_advance pad w
        + (rest.map (get_widget_advance pad)).sum ≤ right_limit := by
      have := hfit
      simp only [List.map_cons, List.sum_cons] at this
      linarith
    have hov : ¬ (x + get_widget_advance pad w > right_limit) := by
      push_neg
      linarith
    have hx3le : (if isSpacerW w then x + pf else x) ≤ x := by
      by_cases hspw : isSpacerW w = true
      · rw [if_pos hspw]
        linarith
      · rw [if_neg hspw]
    have hrec := ih ((if isSpacerW w then x + pf else x) + get_widget_advance pad w) y
      (max w.height lh) (-pad)
      (fun a ha => hsep a (List.mem_cons_of_mem w ha))
      (fun a ha => hw a (List.mem_cons_of_mem w ha))
      (by linarith)
      (by linarith)
    have hgo : position_go pad start_x right_limit (w :: rest) x y lh pf
        = (if isSpacerW w then x + pf else x, y)
          :: position_go pad start_x right_limit rest
               ((if isSpacerW w then x + pf else x) + get_widget_advance pad w) y
               (max w.height lh) (-pad) := by
      show (if isSepW w then _ else _) = _
      rw [if_neg (by simp [hsepw])]
      simp only [if_neg hov]
    rw [hgo]
    refine ⟨by simp [hrec.1], ?_⟩
    intro p hp
    rcases List.mem_cons.mp hp with hhead | htail
    · rw [hhead]
    · exact hrec.2 p htail

/-- C4: for every padding ≥ 0 and every widget sequence without line
separators (widths non-negative, as the geometry invariant guarantees) whose
total advance fits the width budget `right_limit − start_x`, the positioning
pass places all widgets (one position per widget) and every widget's
y-coordinate equals the frame's top interior offset `start_y`
(`widget_start().y + padding`). -/
theorem positioning_single_line_when_fits
    (pad start_x start_y right_limit : ℚ) (ws : List Wk)
    (hpad : 0 ≤ pad)
    (hnosep : ∀ w ∈ ws, isSepW w = false)
    (hw : ∀ w ∈ ws, 0 ≤ Wk.width w)
    (hfit : start_x + (ws.map (get_widget_advance pad)).sum ≤ right_limit) :
    (position_pass pad start_x start_y right_limit ws).length = ws.length ∧
    ∀ p ∈ position_pass pad start_x start_y right_limit ws, p.2 = start_y :=
  position_go_single_line pad start_x right_limit hpad ws start_x start_y 0 0
    hnosep hw le_rfl hfit

/-- Witness: padding 1, widgets of widths 2 and 3 (advances 3 and 4) and a
spacer of width 1, budget `0` to `10`; all three y-coordinates are 5. -/
theorem positioning_single_line_when_fits_witness :
    (0 : ℚ) ≤ 1 ∧
    (∀ w ∈ [Wk.ext 2 3, Wk.spacer 1, Wk.ext 3 2], isSepW w = false) ∧
    (∀ w ∈ [Wk.ext 2 3, Wk.spacer 1, Wk.ext 3 2], 0 ≤ Wk.width w) ∧
    (0 : ℚ) + (([Wk.ext 2 3, Wk.spacer 1, Wk.ext 3 2].map (get_widget_advance 1)).sum) ≤ 10 ∧
    (∀ p ∈ position_pass 1 0 5 10 [Wk.ext 2 3, Wk.spacer 1, Wk.ext 3 2], p.2 = 5) := by
  refine ⟨by norm_num, ?_, ?_, ?_, ?_⟩
  · intro w hws
    fin_cases hws <;> rfl
  · intro w hws
    fin_cases hws <;> norm_num [Wk.width]
  · norm_num [get_widget_advance, isSepW, isSpacerW, Wk.width]
  · exact (positioning_single_line_when_fits 1 0 5 10 [Wk.ext 2 3, Wk.spacer 1, Wk.ext 3 2]
      (by norm_num)
      (by intro w hws; fin_cases hws <;> rfl)
      (by intro w hws; fin_cases hws <;> norm_num [Wk.width])
      (by norm_num [get_widget_advance, isSepW, isSpacerW, Wk.width])).2

/-! ### `Frame::compute_size_to_fit` (Frame.cpp)

The widget loop accumulates `total_width`, `line_width`, `total_height`,
`line_height`, `pad_fix`.  A spacer only arms `pad_fix = -padding`; a line
separator folds the line into the totals; other widgets extend the current
line (the nested branch for a zero-sized child frame recursing into its own
fit size is not exercised here: children are leaves in this flat model).
After the loop, a non-empty last line is folded in, the title-bar height
allowance `(widget_start() − location()).y` is added, the width is raised to
the title width accommodation plus two paddings, and — only for a non-empty
frame — both components get the fixed `3×padding` correction. -/

def size_to_fit_go (pad : ℚ) :
    List Wk → ℚ → ℚ → ℚ → ℚ → ℚ → ℚ × ℚ × ℚ × ℚ
  | [], total_width, line_width, total_height, line_height, _ =>
    (total_width, line_width, total_height, line_height)
  | w :: rest, total_width, line_width, total_height, line_height, pad_fix =>
    if isSpacerW w then
      size_to_fit_go pad rest total_width line_width total_height line_height (-pad)
    else if isSepW w then
      size_to_fit_go pad rest (max line_width total_width) 0
        (total_height + line_height + pad) 0 0
    else
      size_to_fit_go pad rest total_width
        (line_width + get_widget_advance pad w + pad_fix) total_height
        (max line_height w.height) 0

/-- `compute_size_to_fit` before the non-empty `3×padding` correction. -/
def compute_size_to_fit_core (pad title_width_accommodation title_bar_height : ℚ)
    (ws : List Wk) : ℚ × ℚ :=
  let r := size_to_fit_go pad ws 0 0 0 0 0
  let total_width := if r.2.1 ≠ 0 then max r.1 r.2.1 else r.1
  let total_height := if r.2.1 ≠ 0 then r.2.2.1 + r.2.2.2 + pad else r.2.2.1
  (max total_width (title_width_accommodation + pad * 2),
   total_height + title_bar_height)

def compute_size_to_fit (pad title_width_accommodation title_bar_height : ℚ)
    (ws : List Wk) : ℚ × ℚ :=
  if ws ≠ [] then
    ((compute_size_to_fit_core pad title_width_accommodation title_bar_height ws).1 + pad * 3,
     (compute_size_to_fit_core pad title_width_accommodation title_bar_height ws).2 + pad * 3)
  else compute_size_to_fit_core pad title_width_accommodation title_bar_height ws

/-- C7: the fit size of an empty frame with a title is, in width, the title's
width accommodation plus two paddings and, in height, the title-bar allowance
(the interior offset between the border's widget start and its location); the
`3×padding` correction is applied exactly to non-empty frames. -/
theorem compute_size_to_fit_empty_frame
    (pad title_acc title_bar_height : ℚ) (hpad : 0 ≤ pad) (hacc : 0 ≤ title_acc) :
    compute_size_to_fit pad title_acc title_bar_height []
        = (title_acc + pad * 2, title_bar_height) ∧
    (∀ ws : List Wk, ws ≠ [] →
      compute_size_to_fit pad title_acc title_bar_height ws
        = ((compute_size_to_fit_core pad title_acc title_bar_height ws).1 + pad * 3,
           (compute_size_to_fit_core pad title_acc title_bar_height ws).2 + pad * 3)) := by
  constructor
  · unfold compute_size_to_fit
    rw [if_neg (by simp : ¬ ([] : List Wk) ≠ [])]
    unfold compute_size_to_fit_core
    simp only [size_to_fit_go, ne_eq, not_true_eq_false, if_false, ite_self]
    have h1 : max (0 : ℚ) (title_acc + pad * 2) = title_acc + pad * 2 := by
      apply max_eq_right
      positivity
    simp [h1]
  · intro ws hne
    unfold compute_size_to_fit
    rw [if_pos hne]

/-- Witness: padding 1, title accommodation 4, title-bar allowance 7 — the
empty frame fits to `(6, 7)`; adding one widget applies the `+3` correction. -/
theorem compute_size_to_fit_empty_frame_witness :
    (0 : ℚ) ≤ 1 ∧ (0 : ℚ) ≤ 4 ∧
    compute_size_to_fit 1 4 7 [] = (6, 7) ∧
    compute_size_to_fit 1 4 7 [Wk.ext 2 3]
      = ((compute_size_to_fit_core 1 4 7 [Wk.ext 2 3]).1 + 1 * 3,
         (compute_size_to_fit_core 1 4 7 [Wk.ext 2 3]).2 + 1 * 3) := by
  refine ⟨by norm_num, by norm_num, ?_, ?_⟩
  · have h := (compute_size_to_fit_empty_frame 1 4 7 (by norm_num) (by norm_num)).1
    rw [h]
    norm_num
  · exact (compute_size_to_fit_empty_frame 1 4 7 (by norm_num) (by norm_num)).2
      [Wk.ext 2 3] (by simp)

/-! ### Geometry-only finalize and its idempotence (C5)

`Frame::finalize_widgets()` (private): `issue_auto_resize` (children first;
the frame adopts its fit size exactly when its width or height is zero), then
`m_border.update_geometry()`, then `update_horizontal_spacers`, then the
positioning pass, then recursion into child frames and the focus rebuild
(no-ops for the leaf children modelled here).  The `FrameBorder` internals are
not part of the sources; modelled from the spec: the interior offsets
(`widget_start` relative to the location) and the title accommodation are
constants of the border and title, while `width_available_for_widgets` is a
function of the adopted outer size. -/

structure FrameGeom where
  w : ℚ
  h : ℚ
  widgets : List Wk
  positions : List (ℚ × ℚ)

/-- `issue_auto_resize`: the frame's size, after adopting the fit size when
width or height is unset (zero). -/
def adopted_size (pad title_acc title_bar_height : ℚ) (st : FrameGeom) : ℚ × ℚ :=
  if st.w = 0 ∨ st.h = 0
  then compute_size_to_fit pad title_acc title_bar_height st.widgets
  else (st.w, st.h)

def finalize_geometry (pad loc_x title_acc title_bar_height ws_x ws_y : ℚ)
    (width_avail : ℚ → ℚ → ℚ) (st : FrameGeom) : FrameGeom :=
  { w := (adopted_size pad title_acc title_bar_height st).1,
    h := (adopted_size pad title_acc title_bar_height st).2,
    widgets := update_horizontal_spacers
      (width_avail (adopted_size pad title_acc title_bar_height st).1
                   (adopted_size pad title_acc title_bar_height st).2)
      pad st.widgets,
    positions := position_pass pad (ws_x + pad) (ws_y + pad)
      (loc_x + (adopted_size pad title_acc title_bar_height st).1)
      (update_horizontal_spacers
        (width_avail (adopted_size pad title_acc title_bar_height st).1
                     (adopted_size pad title_acc title_bar_height st).2)
        pad st.widgets) }

/-- Forgets assigned spacer widths; the fit computation and the spacer pass
read a widget list only through this shape. -/
def erase_spacer_width : Wk → Wk
  | Wk.spacer _ => Wk.spacer 0
  | w => w

lemma erase_fix_of_not_spacer (w : Wk) (h : isSpacerW w = false) :
    erase_spacer_width w = w := by
  cases w with
  | ext a b => rfl
  | spacer a => exact absurd h (by simp [isSpacerW])
  | sep => rfl

lemma isSpacerW_erase (w : Wk) : isSpacerW (erase_spacer_width w) = isSpacerW w := by
  cases w <;> rfl

lemma isSepW_erase (w : Wk) : isSepW (erase_spacer_width w) = isSepW w := by
  cases w <;> rfl

lemma size_to_fit_go_erase (pad : ℚ) :
    ∀ (ws : List Wk) (tw lw th lh pf : ℚ),
      size_to_fit_go pad (ws.map erase_spacer_width) tw lw th lh pf
        = size_to_fit_go pad ws tw lw th lh pf := by
  intro ws
  induction ws with
  | nil => intro tw lw th lh pf; rfl
  | cons w rest ih =>
    intro tw lw th lh pf
    by_cases hsp : isSpacerW w = true
    · simp only [List.map_cons, size_to_fit_go, isSpacerW_erase, hsp, if_true]
      exact ih tw lw th lh (-pad)
    · have hw : erase_spacer_width w = w :=
        erase_fix_of_not_spacer w (Bool.eq_false_iff.mpr hsp)
      simp only [List.map_cons, hw]
      by_cases hsep : isSepW w = true
      · simp only [size_to_fit_go, hsp, hsep, if_true, Bool.false_eq_true, if_false]
        exact ih _ _ _ _ _
      · simp only [size_to_fit_go, hsp, hsep, Bool.false_eq_true, if_false]
        exact ih _ _ _ _ _

lemma compute_size_to_fit_erase (pad title_acc title_bar_height : ℚ) (ws : List Wk) :
    compute_size_to_fit pad title_acc title_bar_height (ws.map erase_spacer_width)
      = compute_size_to_fit pad title_acc title_bar_height ws := by
  unfold compute_size_to_fit compute_size_to_fit_core
  rw [size_to_fit_go_erase]
  cases ws with
  | nil => rfl
  | cons w rest => simp

lemma set_horz_spacer_widths_erase (pad lo : ℚ) (line : List Wk) :
    set_horz_spacer_widths pad lo (line.map erase_spacer_width)
      = set_horz_spacer_widths pad lo line := by
  unfold set_horz_spacer_widths
  have hcount : ((line.map erase_spacer_width).filter isSpacerW).length
      = (line.filter isSpacerW).length := by
    rw [List.filter_map]
    simp only [List.length_map]
    congr 1
    apply List.filter_congr
    intro a _
    exact isSpacerW_erase a
  rw [hcount]
  by_cases hc : (line.filter isSpacerW).length = 0
  · rw [if_pos hc, if_pos hc]
    have : ∀ a ∈ line, isSpacerW a = false := by
      intro a ha
      by_contra hsp
      have : a ∈ line.filter isSpacerW :=
        List.mem_filter.mpr ⟨ha, by revert hsp; cases isSpacerW a <;> simp⟩
      rw [List.length_eq_zero] at hc
      rw [hc] at this
      cases this
    calc line.map erase_spacer_width
        = line.map id := by
          apply List.map_congr_left
          intro a ha
          exact erase_fix_of_not_spacer a (this a ha)
      _ = line := List.map_id line
  · rw [if_neg hc, if_neg hc]
    rw [List.map_map]
    apply List.map_congr_left
    intro a _
    by_cases hsp : isSpacerW a = true
    · simp [Function.comp, isSpacerW_erase, hsp]
    · simp only [Function.comp_apply, isSpacerW_erase,
        Bool.eq_false_iff.mpr hsp, Bool.false_eq_true, if_false]
      exact erase_fix_of_not_spacer a (Bool.eq_false_iff.mpr hsp)

lemma update_horz_go_erase (space pad : ℚ) :
    ∀ (l cur : List Wk) (x pf : ℚ),
      update_horz_go space pad (l.map erase_spacer_width) x pf (cur.map erase_spacer_width)
        = update_horz_go space pad l x pf cur := by
  intro l
  induction l with
  | nil =>
    intro cur x pf
    exact set_horz_spacer_widths_erase pad (max (space - x) 0) cur
  | cons w rest ih =>
    intro cur x pf
    by_cases hsp : isSpacerW w = true
    · simp only [List.map_cons, update_horz_go, isSpacerW_erase, hsp, if_true]
      rw [show cur.map erase_spacer_width ++ [erase_spacer_width w]
            = (cur ++ [w]).map erase_spacer_width by simp]
      exact ih (cur ++ [w]) (x + pf) 0
    · have hwfix : erase_spacer_width w = w :=
        erase_fix_of_not_spacer w (Bool.eq_false_iff.mpr hsp)
      simp only [List.map_cons, hwfix, update_horz_go, hsp, Bool.false_eq_true, if_false]
      by_cases hbr : x + get_widget_advance pad w > space ∨ isSepW w = true
      · rw [if_pos hbr, if_pos hbr]
        rw [set_horz_spacer_widths_erase]
        rw [show ([w] : List Wk) = [w].map erase_spacer_width by simp [hwfix]]
        rw [ih [w] (get_widget_advance pad w) 0]
        simp [hwfix]
      · rw [if_neg hbr, if_neg hbr]
        rw [show cur.map erase_spacer_width ++ [w]
              = (cur ++ [w]).map erase_spacer_width by simp [hwfix]]
        exact ih (cur ++ [w]) (x + get_widget_advance pad w) (-pad)

lemma update_horizontal_spacers_erase (space pad : ℚ) (ws : List Wk) :
    update_horizontal_spacers space pad (ws.map erase_spacer_width)
      = update_horizontal_spacers space pad ws := by
  cases ws with
  | nil => rfl
  | cons w rest =>
    show update_horz_go space pad ((w :: rest).map erase_spacer_width) 0 0 []
        = update_horz_go space pad (w :: rest) 0 0 []
    rw [show ([] : List Wk) = ([] : List Wk).map erase_spacer_width from rfl]
    exact update_horz_go_erase space pad (w :: rest) [] 0 0

lemma set_horz_spacer_widths_map_erase (pad lo : ℚ) (line : List Wk) :
    (set_horz_spacer_widths pad lo line).map erase_spacer_width
      = line.map erase_spacer_width := by
  unfold set_horz_spacer_widths
  by_cases hc : (line.filter isSpacerW).length = 0
  · rw [if_pos hc]
  · rw [if_neg hc]
    rw [List.map_map]
    apply List.map_congr_left
    intro a _
    by_cases hsp : isSpacerW a = true
    · cases a with
      | spacer v => simp [Function.comp, isSpacerW, erase_spacer_width]
      | ext v h => simp [isSpacerW] at hsp
      | sep => simp [isSpacerW] at hsp
    · simp [Function.comp, Bool.eq_false_iff.mpr hsp]

lemma update_horz_go_map_erase (space pad : ℚ) :
    ∀ (l cur : List Wk) (x pf : ℚ),
      (update_horz_go space pad l x pf cur).map erase_spacer_width
        = (cur ++ l).map erase_spacer_width := by
  intro l
  induction l with
  | nil =>
    intro cur x pf
    simpa using set_horz_spacer_widths_map_erase pad (max (space - x) 0) cur
  | cons w rest ih =>
    intro cur x pf
    by_cases hsp : isSpacerW w = true
    · simp only [update_horz_go, hsp, if_true]
      rw [ih (cur ++ [w]) (x + pf) 0]
      simp
    · simp only [update_horz_go, hsp, Bool.false_eq_true, if_false]
      by_cases hbr : x + get_widget_advance pad w > space ∨ isSepW w = true
      · rw [if_pos hbr]
        rw [List.map_append, set_horz_spacer_widths_map_erase,
            ih [w] (get_widget_advance pad w) 0]
        simp
      · rw [if_neg hbr]
        rw [ih (cur ++ [w]) (x + get_widget_advance pad w) (-pad)]
        simp

lemma update_horizontal_spacers_map_erase (space pad : ℚ) (ws : List Wk) :
    (update_horizontal_spacers space pad ws).map erase_spacer_width
      = ws.map erase_spacer_width := by
  cases ws with
  | nil => rfl
  | cons w rest =>
    show (update_horz_go space pad (w :: rest) 0 0 []).map erase_spacer_width = _
    rw [update_horz_go_map_erase space pad (w :: rest) [] 0 0]
    rfl

lemma update_horizontal_spacers_idem (space pad : ℚ) (ws : List Wk) :
    update_horizontal_spacers space pad (update_horizontal_spacers space pad ws)
      = update_horizontal_spacers space pad ws := by
  calc update_horizontal_spacers space pad (update_horizontal_spacers space pad ws)
      = update_horizontal_spacers space pad
          ((update_horizontal_spacers space pad ws).map erase_spacer_width) :=
        (update_horizontal_spacers_erase space pad _).symm
    _ = update_horizontal_spacers space pad (ws.map erase_spacer_width) := by
        rw [update_horizontal_spacers_map_erase]
    _ = update_horizontal_spacers space pad ws :=
        update_horizontal_spacers_erase space pad ws

lemma compute_size_to_fit_update (space pad title_acc title_bar_height : ℚ) (ws : List Wk) :
    compute_size_to_fit pad title_acc title_bar_height
        (update_horizontal_spacers space pad ws)
      = compute_size_to_fit pad title_acc title_bar_height ws := by
  calc compute_size_to_fit pad title_acc title_bar_height
        (update_horizontal_spacers space pad ws)
      = compute_size_to_fit pad title_acc title_bar_height
          ((update_horizontal_spacers space pad ws).map erase_spacer_width) :=
        (compute_size_to_fit_erase pad title_acc title_bar_height _).symm
    _ = compute_size_to_fit pad title_acc title_bar_height (ws.map erase_spacer_width) := by
        rw [update_horizontal_spacers_map_erase]
    _ = compute_size_to_fit pad title_acc title_bar_height ws :=
        compute_size_to_fit_erase pad title_acc title_bar_height ws

lemma adopted_size_finalize (pad loc_x title_acc title_bar_height ws_x ws_y : ℚ)
    (width_avail : ℚ → ℚ → ℚ) (st : FrameGeom) :
    adopted_size pad title_acc title_bar_height
        (finalize_geometry pad loc_x title_acc title_bar_height ws_x ws_y width_avail st)
      = adopted_size pad title_acc title_bar_height st := by
  unfold finalize_geometry
  unfold adopted_size
  by_cases h0 : st.w = 0 ∨ st.h = 0
  · rw [if_pos h0]
    by_cases h1 : (compute_size_to_fit pad title_acc title_bar_height st.widgets).1 = 0
        ∨ (compute_size_to_fit pad title_acc title_bar_height st.widgets).2 = 0
    · simp only [adopted_size, if_pos h0]
      rw [if_pos h1]
      exact compute_size_to_fit_update _ pad title_acc title_bar_height st.widgets
    · simp only [adopted_size, if_pos h0]
      rw [if_neg h1]
  · rw [if_neg h0]
    simp only [adopted_size, if_neg h0]

/-- C5: running the geometry-only finalize twice with identical inputs is
idempotent — the frame's own size, the spacer widths in the widget list and
every placed widget position after the second run equal those after the
first. -/
theorem finalize_geometry_idempotent (pad loc_x title_acc title_bar_height ws_x ws_y : ℚ)
    (width_avail : ℚ → ℚ → ℚ) (st : FrameGeom) :
    finalize_geometry pad loc_x title_acc title_bar_height ws_x ws_y width_avail
        (finalize_geometry pad loc_x title_acc title_bar_height ws_x ws_y width_avail st)
      = finalize_geometry pad loc_x title_acc title_bar_height ws_x ws_y width_avail st := by
  have hsz := adopted_size_finalize pad loc_x title_acc title_bar_height ws_x ws_y
    width_avail st
  have hwidgets : (finalize_geometry pad loc_x title_acc title_bar_height ws_x ws_y
      width_avail st).widgets
      = update_horizontal_spacers
          (width_avail (adopted_size pad title_acc title_bar_height st).1
                       (adopted_size pad title_acc title_bar_height st).2)
          pad st.widgets := rfl
  show FrameGeom.mk _ _ _ _ = FrameGeom.mk _ _ _ _
  rw [hsz, hwidgets, update_horizontal_spacers_idem]

/-! ### ProgressBar (ProgressBar.cpp) -/

inductive RangeErr where
  | fillOutOfRange
deriving DecidableEq

structure ProgressBarSt where
  fill_amount : ℚ
  padding : ℚ
  outer_x : ℚ
  outer_y : ℚ
  outer_w : ℚ
  outer_h : ℚ
  inner_back_size : ℚ × ℚ
  inner_front_size : ℚ × ℚ
deriving DecidableEq

/-- `ProgressBar::active_padding`: zero when the outer rectangle is smaller
than the padding in either dimension. -/
def active_padding (s : ProgressBarSt) : ℚ :=
  if s.outer_w < s.padding ∨ s.outer_h < s.padding then 0 else s.padding

/-- `ProgressBar::update_sizes_using_outer`. -/
def update_sizes_using_outer (s : ProgressBarSt) : ProgressBarSt :=
  { s with
    inner_back_size := (s.outer_w - active_padding s * 2, s.outer_h - active_padding s * 2),
    inner_front_size := ((s.outer_w - active_padding s * 2) * s.fill_amount,
                         s.outer_h - active_padding s * 2) }

/-- `ProgressBar::set_size`: resize the outer rectangle, then recompute the
inner rectangles from it. -/
def ProgressBar.set_size (s : ProgressBarSt) (w h : ℚ) : ProgressBarSt :=
  update_sizes_using_outer { s with outer_w := w, outer_h := h }

/-- `ProgressBar::set_fill_amount`: out-of-range values throw
`std::out_of_range` before `m_fill_amount` is assigned; in-range values are
stored and the sizes are refreshed through `set_size(width(), height())`. -/
def set_fill_amount (s : ProgressBarSt) (fill_amount : ℚ) :
    Except RangeErr ProgressBarSt :=
  if fill_amount < 0 ∨ fill_amount > 1 then
    Except.error RangeErr.fillOutOfRange
  else
    Except.ok (ProgressBar.set_size { s with fill_amount := fill_amount }
      s.outer_w s.outer_h)

/-- The throwing call leaves the object unchanged. -/
def set_fill_amount_run (s : ProgressBarSt) (fill_amount : ℚ) : ProgressBarSt :=
  match set_fill_amount s fill_amount with
  | Except.ok s' => s'
  | Except.error _ => s

/-- C8: `set_fill_amount` outside `[0,1]` fails with a range error and leaves
the stored fill amount unchanged; inside `[0,1]` the value is stored and the
inner fill rectangle's width becomes the padded inner width times the fill
fraction. -/
theorem set_fill_amount_range_check (s : ProgressBarSt) (f : ℚ) :
    (f < 0 ∨ f > 1 →
      set_fill_amount s f = Except.error RangeErr.fillOutOfRange ∧
      (set_fill_amount_run s f).fill_amount = s.fill_amount) ∧
    (0 ≤ f → f ≤ 1 →
      set_fill_amount s f = Except.ok (ProgressBar.set_size
        { s with fill_amount := f } s.outer_w s.outer_h) ∧
      (set_fill_amount_run s f).fill_amount = f ∧
      (set_fill_amount_run s f).inner_front_size
        = ((s.outer_w - active_padding { s with fill_amount := f } * 2) * f,
           s.outer_h - active_padding { s with fill_amount := f } * 2)) := by
  constructor
  · intro hout
    have herr : set_fill_amount s f = Except.error RangeErr.fillOutOfRange := by
      unfold set_fill_amount
      rw [if_pos hout]
    refine ⟨herr, ?_⟩
    unfold set_fill_amount_run
    rw [herr]
  · intro h0 h1
    have hin : ¬ (f < 0 ∨ f > 1) := by
      push_neg
      exact ⟨h0, h1⟩
    have hok : set_fill_amount s f = Except.ok (ProgressBar.set_size
        { s with fill_amount := f } s.outer_w s.outer_h) := by
      unfold set_fill_amount
      rw [if_neg hin]
    have hrun : set_fill_amount_run s f = ProgressBar.set_size
        { s with fill_amount := f } s.outer_w s.outer_h := by
      unfold set_fill_amount_run
      rw [hok]
    refine ⟨hok, ?_, ?_⟩
    · rw [hrun]
      rfl
    · rw [hrun]
      rfl

/-- Witness: a bar of outer size `10 × 4`, padding 1, holding fill `1/2`.
`set_fill_amount 1.5` fails with the range error and the stored value stays
`1/2`; `set_fill_amount (3/4)` stores the value and resizes the inner fill
rectangle to `(8 * 3/4, 2) = (6, 2)`. -/
theorem set_fill_amount_range_check_witness :
    ((3 : ℚ)/2 < 0 ∨ (3 : ℚ)/2 > 1) ∧
    set_fill_amount (ProgressBarSt.mk (1/2) 1 0 0 10 4 (8, 2) (4, 2)) (3/2)
      = Except.error RangeErr.fillOutOfRange ∧
    (set_fill_amount_run (ProgressBarSt.mk (1/2) 1 0 0 10 4 (8, 2) (4, 2)) (3/2)).fill_amount
      = (1/2 : ℚ) ∧
    (0 : ℚ) ≤ 3/4 ∧ (3/4 : ℚ) ≤ 1 ∧
    (set_fill_amount_run (ProgressBarSt.mk (1/2) 1 0 0 10 4 (8, 2) (4, 2)) (3/4)).fill_amount
      = (3/4 : ℚ) ∧
    (set_fill_amount_run (ProgressBarSt.mk (1/2) 1 0 0 10 4 (8, 2) (4, 2)) (3/4)).inner_front_size
      = ((6 : ℚ), (2 : ℚ)) := by
  have hout := (set_fill_amount_range_check
    (ProgressBarSt.mk (1/2) 1 0 0 10 4 (8, 2) (4, 2)) (3/2)).1
    (by norm_num)
  have hin := (set_fill_amount_range_check
    (ProgressBarSt.mk (1/2) 1 0 0 10 4 (8, 2) (4, 2)) (3/4)).2
    (by norm_num) (by norm_num)
  refine ⟨by norm_num, hout.1, ?_, by norm_num, by norm_num, hin.2.1, ?_⟩
  · rw [hout.2]
  · rw [hin.2.2]
    norm_num [active_padding]

/-! ### Button (Button.cpp) -/

inductive ArgErr where
  | invalidArg
deriving DecidableEq

structure ButtonSt where
  padding : ℚ
  outer_pos : ℚ × ℚ
  outer_size : ℚ × ℚ
  inner_pos : ℚ × ℚ
  inner_size : ℚ × ℚ
deriving DecidableEq

/-- `Button::set_button_frame_size`: outer takes the requested size, inner the
size shrunk by twice the padding, floored at zero per component. -/
def set_button_frame_size (s : ButtonSt) (w h : ℚ) : ButtonSt :=
  { s with
    outer_size := (w, h),
    inner_size := (max (w - s.padding * 2) 0, max (h - s.padding * 2) 0) }

/-- `Button::set_size`: throws `std::invalid_argument` unless both dimensions
are strictly positive ("positive real numbers (which excludes zero)"), before
touching any geometry; otherwise resizes the frame (the `set_size_back` and
`on_size_changed` hooks are no-ops in `Button` itself). -/
def Button.set_size (s : ButtonSt) (w h : ℚ) : Except ArgErr ButtonSt :=
  if w ≤ 0 ∨ h ≤ 0 then Except.error ArgErr.invalidArg
  else Except.ok (set_button_frame_size s w h)

def Button.set_size_run (s : ButtonSt) (w h : ℚ) : ButtonSt :=
  match Button.set_size s w h with
  | Except.ok s' => s'
  | Except.error _ => s

/-- C10: `Button::set_size` throws an invalid-argument error unless `w > 0`
and `h > 0` — zero is rejected along with negative sizes, stricter than the
spec's sizing contract — and on error the button's geometry is unchanged. -/
theorem button_set_size_rejects_nonpositive (s : ButtonSt) (w h : ℚ) :
    (¬ (0 < w ∧ 0 < h) →
      Button.set_size s w h = Except.error ArgErr.invalidArg ∧
      Button.set_size_run s w h = s) ∧
    (0 < w → 0 < h →
      Button.set_size s w h = Except.ok (set_button_frame_size s w h)) := by
  constructor
  · intro hbad
    have hcond : w ≤ 0 ∨ h ≤ 0 := by
      rcases not_and_or.mp hbad with hw | hh
      · exact Or.inl (le_of_not_lt hw)
      · exact Or.inr (le_of_not_lt hh)
    have herr : Button.set_size s w h = Except.error ArgErr.invalidArg := by
      unfold Button.set_size
      rw [if_pos hcond]
    refine ⟨herr, ?_⟩
    unfold Button.set_size_run
    rw [herr]
  · intro hw hh
    unfold Button.set_size
    rw [if_neg (by push_neg; exact ⟨hw, hh⟩)]

/-- Witness: `set_size 0 5` is rejected (zero width) leaving the geometry
unchanged, while `set_size 4 5` succeeds. -/
theorem button_set_size_rejects_nonpositive_witness :
    ¬ ((0 : ℚ) < 0 ∧ (0 : ℚ) < 5) ∧
    Button.set_size (ButtonSt.mk 1 (0, 0) (2, 2) (1, 1) (0, 0)) 0 5
      = Except.error ArgErr.invalidArg ∧
    Button.set_size_run (ButtonSt.mk 1 (0, 0) (2, 2) (1, 1) (0, 0)) 0 5
      = ButtonSt.mk 1 (0, 0) (2, 2) (1, 1) (0, 0) ∧
    (0 : ℚ) < 4 ∧ (0 : ℚ) < 5 ∧
    Button.set_size (ButtonSt.mk 1 (0, 0) (2, 2) (1, 1) (0, 0)) 4 5
      = Except.ok (set_button_frame_size (ButtonSt.mk 1 (0, 0) (2, 2) (1, 1) (0, 0)) 4 5) := by
  have hbad := (button_set_size_rejects_nonpositive
    (ButtonSt.mk 1 (0, 0) (2, 2) (1, 1) (0, 0)) 0 5).1 (by norm_num)
  have hok := (button_set_size_rejects_nonpositive
    (ButtonSt.mk 1 (0, 0) (2, 2) (1, 1) (0, 0)) 4 5).2 (by norm_num) (by norm_num)
  exact ⟨by norm_num, hbad.1, hbad.2, by norm_num, by norm_num, hok⟩

end Ksg
